import Mathlib

/-!
Shallow embedding of `scripts/check_runtime_signatures.py`.

The script loads a lock document (channels → components → records with
`signature_url` and `public_key_fingerprint`), fetches each component's
detached signature, extracts the 40-hex-character issuer fingerprint from a
`gpg --list-packets` dump, compares it with the expected fingerprint, and
exits 0 iff no mismatch was found.

Effectful parts (HTTP fetch, the gpg subprocess) are modelled by an oracle
`fd : String → FetchOutcome` mapping a signature URL to either a fetch
error, a gpg error, or the textual packet-dump output.  Python strings are
modelled as Lean `String`s; `str.strip`, `str.upper` and `str.splitlines`
are modelled character-wise over ASCII (the fingerprint data the script
manipulates is ASCII).  A JSON field that may be absent is an
`Option String` (the script reads fields with `dict.get(key, "")`).
-/

namespace CheckRuntimeSignatures

/-- ASCII whitespace as recognised by Python `str.strip()`. -/
def pyIsSpace (c : Char) : Bool :=
  c = ' ' || c = '\t' || c = '\n' || c = '\x0d' || c = '\x0b' || c = '\x0c'

/-- Model of Python `str.strip()`: drop leading and trailing whitespace. -/
def pyStripList (s : List Char) : List Char :=
  ((s.dropWhile pyIsSpace).reverse.dropWhile pyIsSpace).reverse

/-- Model of Python `str.strip()` on `String`. -/
def pyStrip (s : String) : String :=
  String.mk (pyStripList s.data)

/-- Model of Python `str.upper()`: uppercase character by character. -/
def pyUpper (s : String) : String :=
  String.mk (s.data.map Char.toUpper)

/-- Whether `p` is a prefix of `s`, by direct character comparison. -/
def startsWithL : List Char → List Char → Bool
  | [], _ => true
  | _ :: _, [] => false
  | p :: ps, c :: cs => p = c && startsWithL ps cs

/-- Whether `pat` occurs as a contiguous substring of `s`
(Python's `pat in s`). -/
def containsSub (pat : List Char) : List Char → Bool
  | [] => startsWithL pat []
  | c :: cs => startsWithL pat (c :: cs) || containsSub pat cs

/-- Helper for `pySplitlines`: split the remaining characters at line
boundaries, accumulating the current (reversed) line in `acc`. -/
def splitlinesGo : List Char → List Char → List (List Char)
  | [], acc => [acc.reverse]
  | '\n' :: rest, acc =>
      acc.reverse :: (if rest = [] then [] else splitlinesGo rest [])
  | '\x0d' :: '\n' :: rest, acc =>
      acc.reverse :: (if rest = [] then [] else splitlinesGo rest [])
  | '\x0d' :: rest, acc =>
      acc.reverse :: (if rest = [] then [] else splitlinesGo rest [])
  | c :: rest, acc => splitlinesGo rest (c :: acc)

/-- Model of Python `str.splitlines()` restricted to the ASCII line
boundaries `\n`, `\r\n` and `\r`: no trailing empty line is produced. -/
def pySplitlines (s : List Char) : List (List Char) :=
  if s = [] then [] else splitlinesGo s []

/-- A character matched by the regex character class `[A-F0-9]` compiled
with `re.IGNORECASE` (so lowercase `a`-`f` match as well). -/
def isFprChar (c : Char) : Bool :=
  ('A' ≤ c && c ≤ 'F') || ('a' ≤ c && c ≤ 'f') || ('0' ≤ c && c ≤ '9')

/-- Model of `FPR_RE.search`: the leftmost run of 40 consecutive
`[A-F0-9]` (case-insensitive) characters in the line, if any.
`re.search` matches at position `i` iff the 40 characters starting at `i`
all belong to the class. -/
def fprSearch : List Char → Option (List Char)
  | [] => none
  | c :: cs =>
      if ((c :: cs).take 40).length = 40 && ((c :: cs).take 40).all isFprChar then
        some ((c :: cs).take 40)
      else fprSearch cs

/-- The substring the extraction loop looks for in each packet-dump line. -/
def issuerPat : List Char := "issuer fpr v4".data

/-- The `for line in out.splitlines()` loop of
`extract_signature_fingerprint`: skip lines not containing
`issuer fpr v4`; on a line containing it, search the uppercased line for a
40-hex run and return it (uppercased) if found, otherwise keep scanning;
return the empty string when the lines are exhausted. -/
def extractLines : List (List Char) → List Char
  | [] => []
  | line :: rest =>
      if containsSub issuerPat line then
        match fprSearch (line.map Char.toUpper) with
        | some m => m.map Char.toUpper
        | none => extractLines rest
      else extractLines rest

/-- The pure part of `extract_signature_fingerprint`: from the textual
packet-dump output, the extracted and uppercased issuer fingerprint, or
`""` when none is found. -/
def extractFromOutput (out : String) : String :=
  String.mk (extractLines (pySplitlines out.data))

/-- The spec's wording of the extraction result, stated independently of
the source loop: among the output's lines, find the first one that
contains the substring `issuer fpr v4` and whose uppercased text contains
a run of 40 hexadecimal characters; return that run uppercased, and the
empty string if no such line exists. -/
def specExtractFromOutput (out : String) : String :=
  match (pySplitlines out.data).find?
      (fun line => containsSub issuerPat line && (fprSearch (line.map Char.toUpper)).isSome) with
  | some line => String.mk (((fprSearch (line.map Char.toUpper)).getD []).map Char.toUpper)
  | none => ""

/-- Outcome of the effectful part of one extraction attempt: the HTTP
fetch (or the write to the temporary file) fails, the gpg subprocess
fails, or the packet dump output is produced. -/
inductive FetchOutcome where
  | fetchErr (msg : String)
  | gpgErr (msg : String)
  | output (out : String)
deriving DecidableEq, Repr

/-- Observable side-effect events of one extraction attempt. -/
inductive Ev where
  | createTemp
  | deleteTemp
  | httpGet (url : String)
  | runGpg
deriving DecidableEq, Repr

/-- Model of the `with tempfile.NamedTemporaryFile(delete=True)` block:
the temporary file is created on entry and deleted on exit of the block,
whether the body returns normally or raises (the exception propagates
after the cleanup). -/
def withTempFile (body : List Ev × Except String String) :
    List Ev × Except String String :=
  (Ev.createTemp :: body.1 ++ [Ev.deleteTemp], body.2)

/-- Event trace and result of `extract_signature_fingerprint fd url`.
A fetch error raises inside the `with` block before gpg is spawned; a gpg
error raises after the subprocess ran; on success the fingerprint is
parsed out of the dump (parse failure is the empty string, not an
exception). -/
def extractTrace (fd : String → FetchOutcome) (url : String) :
    List Ev × Except String String :=
  withTempFile
    (match fd url with
      | FetchOutcome.fetchErr m => ([Ev.httpGet url], Except.error m)
      | FetchOutcome.gpgErr m => ([Ev.httpGet url, Ev.runGpg], Except.error m)
      | FetchOutcome.output out => ([Ev.httpGet url, Ev.runGpg], Except.ok (extractFromOutput out)))

/-- Result of `extract_signature_fingerprint fd url` as seen by `main`:
either the raised error's message or the extracted fingerprint. -/
def extract_result (fd : String → FetchOutcome) (url : String) :
    Except String String :=
  (extractTrace fd url).2

/-- A component record of the lock document.  A field is `none` when the
key is absent from the JSON object (the script reads both fields with
`component.get(key, "")`). -/
structure Component where
  signature_url : Option String := none
  public_key_fingerprint : Option String := none
deriving DecidableEq, Repr

/-- A channel: its component records keyed by component name, in document
order. -/
abbrev Channel := List (String × Component)

/-- A lock document: its channels keyed by channel name, in document
order; `none` when the top-level `channels` key is absent. -/
structure Lock where
  channels : Option (List (String × Channel)) := none
deriving DecidableEq, Repr

/-- One line of the printed report. -/
inductive ReportLine where
  | channelHeader (name : String)
  | missingSig (component : String)
  | errorReading (component : String) (msg : String)
  | comparison (component : String) (expected actual : String) (ok : Bool)
  | summaryMismatches (n : Nat)
  | summaryAllMatch
deriving DecidableEq, Repr

/-- Everything observable about one run of `main`: the printed report, the
final mismatch counter, the process exit code, and the list of URLs that
were actually fetched (in order). -/
structure RunResult where
  report : List ReportLine
  mismatches : Nat
  exitCode : Nat
  fetched : List String
deriving DecidableEq, Repr

/-- Model of `str(component.get(key, ""))` for a string-valued field:
an absent key yields the empty string. -/
def getStr (o : Option String) : String := o.getD ""

/-- The `signature_url` value used by `main`:
`str(component.get("signature_url", "")).strip()`. -/
def urlOf (c : Component) : String := pyStrip (getStr c.signature_url)

/-- The expected fingerprint used by `main`:
`str(component.get("public_key_fingerprint", "")).strip().upper()`. -/
def expectedOf (c : Component) : String :=
  pyUpper (pyStrip (getStr c.public_key_fingerprint))

/-- The per-component body of `main`'s inner loop: the printed line, the
component's contribution to the mismatch counter, and the URLs fetched for
it. -/
def processComponent (fd : String → FetchOutcome) (name : String) (c : Component) :
    ReportLine × Nat × List String :=
  let signature_url := urlOf c
  let expected := expectedOf c
  if signature_url = "" then
    (ReportLine.missingSig name, 1, [])
  else
    match extract_result fd signature_url with
    | Except.error e => (ReportLine.errorReading name e, 1, [signature_url])
    | Except.ok actual =>
        if actual = expected then
          (ReportLine.comparison name expected actual true, 0, [signature_url])
        else
          (ReportLine.comparison name expected actual false, 1, [signature_url])

/-- Model of `sorted(channel.items())`: the channel's components sorted by
component name under Lean's lexicographic code-point order on `String`
(Python compares the `(name, record)` tuples, which for the distinct keys
of a JSON object reduces to comparing the names code point by code
point). -/
def sortedItems (ch : Channel) : Channel :=
  List.insertionSort (fun p q => p.1 ≤ q.1) ch

/-- One iteration of `main`'s outer loop: the channel header followed by
one line per component in sorted order, the channel's mismatch total, and
the URLs fetched while checking it. -/
def processChannel (fd : String → FetchOutcome) (name : String) (ch : Channel) :
    List ReportLine × Nat × List String :=
  let results := (sortedItems ch).map (fun p => processComponent fd p.1 p.2)
  (ReportLine.channelHeader name :: results.map (fun r => r.1),
   (results.map (fun r => r.2.1)).sum,
   (results.map (fun r => r.2.2)).flatten)

/-- The whole channel loop of `main`, channels taken in stored order. -/
def checkAllComponents (fd : String → FetchOutcome)
    (channels : List (String × Channel)) : List ReportLine × Nat × List String :=
  let results := channels.map (fun p => processChannel fd p.1 p.2)
  ((results.map (fun r => r.1)).flatten,
   (results.map (fun r => r.2.1)).sum,
   (results.map (fun r => r.2.2)).flatten)

/-- Model of `main`: read `lock.get("channels", \x7b\x7d)`, run the
channel loop, print the summary line and return the exit code. -/
def main (fd : String → FetchOutcome) (lock : Lock) : RunResult :=
  let channels := lock.channels.getD []
  let r := checkAllComponents fd channels
  { report := r.1 ++ [if r.2.1 = 0 then ReportLine.summaryAllMatch
                      else ReportLine.summaryMismatches r.2.1],
    mismatches := r.2.1,
    exitCode := if r.2.1 = 0 then 0 else 1,
    fetched := r.2.2 }

/-- Whether a report line records an OK status. -/
def lineOK : ReportLine → Bool
  | ReportLine.comparison _ _ _ ok => ok
  | _ => false

end CheckRuntimeSignatures

namespace CheckRuntimeSignatures

/-- C1 counterexample: a component whose expected fingerprint is the empty
string and whose signature's packet dump contains no issuer line gets
status OK even though both the extracted and the expected fingerprint are
empty, contradicting the claim's requirement that OK implies both are
non-empty. -/
theorem C1_empty_equal_is_ok :
    (processComponent (fun _ => FetchOutcome.output "") "cli"
        ⟨some "http://example/sig.asc", some ""⟩).1 =
      ReportLine.comparison "cli" "" "" true ∧
    lineOK (processComponent (fun _ => FetchOutcome.output "") "cli"
        ⟨some "http://example/sig.asc", some ""⟩).1 = true := by
  decide

/-- C1 (amended): a component's status is OK iff its stripped
`signature_url` is non-empty, the fetch and packet dump succeed, and the
extracted fingerprint (already uppercased) equals the expected fingerprint
(uppercased) — equality of two empty strings also yields OK; any fetch or
extraction error, and an empty `signature_url`, never yield OK. -/
theorem C1_status_ok_iff (fd : String → FetchOutcome) (name : String) (c : Component) :
    lineOK (processComponent fd name c).1 = true ↔
      (urlOf c ≠ "" ∧ ∃ out, fd (urlOf c) = FetchOutcome.output out ∧
        extractFromOutput out = expectedOf c) := by
  by_cases hu : urlOf c = ""
  · simp [processComponent, hu, lineOK]
  · rcases hfd : fd (urlOf c) with m | m | out
    · simp [processComponent, hu, extract_result, extractTrace, withTempFile, hfd, lineOK]
    · simp [processComponent, hu, extract_result, extractTrace, withTempFile, hfd, lineOK]
    · by_cases he : extractFromOutput out = expectedOf c
      · simp [processComponent, hu, extract_result, extractTrace, withTempFile, hfd,
          lineOK, he]
      · simp [processComponent, hu, extract_result, extractTrace, withTempFile, hfd,
          lineOK, he]

/-- C2: for every oracle and lock document, `main` exits with code 0 iff
the accumulated mismatch counter is 0, and with code 1 otherwise. -/
theorem C2_exit_code_zero_iff_no_mismatch (fd : String → FetchOutcome) (lock : Lock) :
    ((main fd lock).exitCode = 0 ↔ (main fd lock).mismatches = 0) ∧
    (main fd lock).exitCode = (if (main fd lock).mismatches = 0 then 0 else 1) := by
  have h : (main fd lock).exitCode = if (main fd lock).mismatches = 0 then 0 else 1 := rfl
  refine ⟨?_, h⟩
  rw [h]
  split <;> simp_all

/-- C4: a component whose extraction raises is reported with the error's
message, contributes exactly 1 to the mismatch counter, and the channel
loop still emits exactly one report line for every component of every
channel (the run does not abort). -/
theorem C4_error_counts_and_run_continues (fd : String → FetchOutcome) (name : String)
    (c : Component) (e : String) (h1 : urlOf c ≠ "")
    (h2 : extract_result fd (urlOf c) = Except.error e) :
    processComponent fd name c = (ReportLine.errorReading name e, 1, [urlOf c]) ∧
    ∀ (cname : String) (ch : Channel),
      (processChannel fd cname ch).1 =
        ReportLine.channelHeader cname ::
          (sortedItems ch).map (fun p => (processComponent fd p.1 p.2).1) := by
  constructor
  · simp [processComponent, h1, h2]
  · intro cname ch
    simp [processChannel, List.map_map, Function.comp_def]

/-- C4 witness: concrete failing fetch. -/
theorem C4_witness :
    urlOf ⟨some "http://u", none⟩ ≠ "" ∧
    extract_result (fun _ => FetchOutcome.fetchErr "boom") (urlOf ⟨some "http://u", none⟩) =
      Except.error "boom" ∧
    processComponent (fun _ => FetchOutcome.fetchErr "boom") "cli" ⟨some "http://u", none⟩ =
      (ReportLine.errorReading "cli" "boom", 1, [urlOf ⟨some "http://u", none⟩]) := by
  have h1 : urlOf ⟨some "http://u", none⟩ ≠ "" := by decide
  exact ⟨h1, rfl,
    (C4_error_counts_and_run_continues (fun _ => FetchOutcome.fetchErr "boom") "cli"
      ⟨some "http://u", none⟩ "boom" h1 rfl).1⟩

/-- C5: a component whose stripped `signature_url` is empty is reported as
missing, contributes exactly 1 to the mismatch counter, fetches nothing,
and its result does not depend on the oracle at all (no fetch is
attempted). -/
theorem C5_missing_url_no_fetch (fd fd2 : String → FetchOutcome) (name : String)
    (c : Component) (h : urlOf c = "") :
    processComponent fd name c = (ReportLine.missingSig name, 1, []) ∧
    processComponent fd name c = processComponent fd2 name c := by
  constructor <;> simp [processComponent, h]

/-- C5 witness: whitespace-only `signature_url`. -/
theorem C5_witness :
    urlOf ⟨some "   ", some "AA"⟩ = "" ∧
    processComponent (fun _ => FetchOutcome.fetchErr "down") "cli" ⟨some "   ", some "AA"⟩ =
      (ReportLine.missingSig "cli", 1, []) ∧
    processComponent (fun _ => FetchOutcome.fetchErr "down") "cli" ⟨some "   ", some "AA"⟩ =
      processComponent (fun _ => FetchOutcome.output "o") "cli" ⟨some "   ", some "AA"⟩ := by
  have h : urlOf ⟨some "   ", some "AA"⟩ = "" := by decide
  exact ⟨h,
    (C5_missing_url_no_fetch (fun _ => FetchOutcome.fetchErr "down")
      (fun _ => FetchOutcome.output "o") "cli" _ h).1,
    (C5_missing_url_no_fetch (fun _ => FetchOutcome.fetchErr "down")
      (fun _ => FetchOutcome.output "o") "cli" _ h).2⟩

/-- C7: a lock document without a `channels` key behaves exactly like one
with an empty `channels` mapping: the report is just the success summary
(no channel sections), the mismatch counter is 0 and the exit code is 0. -/
theorem C7_absent_channels_success (fd : String → FetchOutcome) :
    main fd ⟨none⟩ = main fd ⟨some []⟩ ∧
    (main fd ⟨none⟩).report = [ReportLine.summaryAllMatch] ∧
    (main fd ⟨none⟩).mismatches = 0 ∧
    (main fd ⟨none⟩).exitCode = 0 :=
  ⟨rfl, rfl, rfl, rfl⟩

/-- C8: on every exit path of the extraction operation — fetch error, gpg
error or success — the event trace is exactly one temporary-file creation
at the start and one deletion at the very end, so the temporary file is
always removed after use. -/
theorem C8_temp_file_cleanup (fd : String → FetchOutcome) (url : String) :
    ∃ body : List Ev,
      (extractTrace fd url).1 = Ev.createTemp :: body ++ [Ev.deleteTemp] ∧
      Ev.createTemp ∉ body ∧ Ev.deleteTemp ∉ body := by
  cases h : fd url with
  | fetchErr m =>
      exact ⟨[Ev.httpGet url], by simp [extractTrace, withTempFile, h], by simp, by simp⟩
  | gpgErr m =>
      exact ⟨[Ev.httpGet url, Ev.runGpg], by simp [extractTrace, withTempFile, h],
        by simp, by simp⟩
  | output out =>
      exact ⟨[Ev.httpGet url, Ev.runGpg], by simp [extractTrace, withTempFile, h],
        by simp, by simp⟩

/-- C10: an absent `signature_url` or `public_key_fingerprint` key is
treated exactly like the empty string: the component is processed without
error, an absent `signature_url` yields the missing-signature_url report
and one mismatch, and an absent `public_key_fingerprint` makes the
expected fingerprint the empty string. -/
theorem C10_absent_fields_as_empty (fd : String → FetchOutcome) (name : String)
    (c : Component) :
    processComponent fd name { c with signature_url := none } =
      processComponent fd name { c with signature_url := some "" } ∧
    processComponent fd name { c with public_key_fingerprint := none } =
      processComponent fd name { c with public_key_fingerprint := some "" } ∧
    (c.signature_url = none →
      processComponent fd name c = (ReportLine.missingSig name, 1, [])) ∧
    (c.public_key_fingerprint = none → expectedOf c = "") := by
  refine ⟨rfl, rfl, ?_, ?_⟩
  · intro h
    have hu : urlOf c = "" := by
      unfold urlOf getStr
      rw [h]
      rfl
    simp [processComponent, hu]
  · intro h
    unfold expectedOf getStr
    rw [h]
    rfl

/-- C10 witness: the component record with both keys absent. -/
theorem C10_witness :
    (⟨none, none⟩ : Component).signature_url = none ∧
    (⟨none, none⟩ : Component).public_key_fingerprint = none ∧
    processComponent (fun _ => FetchOutcome.output "") "cli" ⟨none, none⟩ =
      (ReportLine.missingSig "cli", 1, []) ∧
    expectedOf ⟨none, none⟩ = "" :=
  ⟨rfl, rfl,
    (C10_absent_fields_as_empty (fun _ => FetchOutcome.output "") "cli" ⟨none, none⟩).2.2.1 rfl,
    (C10_absent_fields_as_empty (fun _ => FetchOutcome.output "") "cli" ⟨none, none⟩).2.2.2 rfl⟩

end CheckRuntimeSignatures

namespace CheckRuntimeSignatures

/-- Helper for C3: the extraction loop returns exactly the 40-hex run of
the first line that both contains `issuer fpr v4` and has such a run. -/
theorem extractLines_eq_find (ls : List (List Char)) :
    extractLines ls =
      (match ls.find? (fun line =>
          containsSub issuerPat line && (fprSearch (line.map Char.toUpper)).isSome) with
        | some line => ((fprSearch (line.map Char.toUpper)).getD []).map Char.toUpper
        | none => []) := by
  induction ls with
  | nil => rfl
  | cons line rest ih =>
      cases hc : containsSub issuerPat line with
      | true =>
          cases hf : fprSearch (line.map Char.toUpper) with
          | some m =>
              have hp : (containsSub issuerPat line &&
                  (fprSearch (line.map Char.toUpper)).isSome) = true := by
                rw [hc, hf]
                rfl
              rw [@List.find?_cons_of_pos _ (fun l => containsSub issuerPat l && (fprSearch (l.map Char.toUpper)).isSome) line rest hp]
              simp [extractLines, hc, hf]
          | none =>
              have hp : ¬ ((containsSub issuerPat line &&
                  (fprSearch (line.map Char.toUpper)).isSome) = true) := by
                rw [hc, hf]
                simp
              rw [@List.find?_cons_of_neg _ (fun l => containsSub issuerPat l && (fprSearch (l.map Char.toUpper)).isSome) line rest hp]
              simp [extractLines, hc, hf, ih]
      | false =>
          have hp : ¬ ((containsSub issuerPat line &&
              (fprSearch (line.map Char.toUpper)).isSome) = true) := by
            rw [hc]
            simp
          rw [@List.find?_cons_of_neg _ (fun l => containsSub issuerPat l && (fprSearch (l.map Char.toUpper)).isSome) line rest hp]
          simp [extractLines, hc, ih]

/-- C3: the extraction result equals the spec's description — scan the
output's lines for the substring `issuer fpr v4`, take the first such line
with a contiguous 40-hex run, return that run uppercased, and return the
empty string when no matching line/pattern exists. -/
theorem C3_extraction_matches_spec (out : String) :
    extractFromOutput out = specExtractFromOutput out := by
  unfold extractFromOutput specExtractFromOutput
  rw [extractLines_eq_find]
  cases h : (pySplitlines out.data).find? (fun line =>
      containsSub issuerPat line && (fprSearch (line.map Char.toUpper)).isSome) with
  | none => simp [h]
  | some line => simp [h]

instance instTotalNameLe : IsTotal (String × Component) (fun p q => p.1 ≤ q.1) :=
  ⟨fun p q => le_total p.1 q.1⟩

instance instTransNameLe : IsTrans (String × Component) (fun p q => p.1 ≤ q.1) :=
  ⟨fun _ _ _ h1 h2 => le_trans h1 h2⟩

instance instAntisymmNameLt : IsAntisymm (String × Component) (fun p q => p.1 < q.1) :=
  ⟨fun _ _ h1 h2 => absurd h2 (lt_asymm h1)⟩

/-- Helper for C6: `sortedItems` permutes the channel's items. -/
theorem sortedItems_perm (ch : Channel) : List.Perm (sortedItems ch) ch :=
  List.perm_insertionSort _ ch

/-- Helper for C6: `sortedItems` sorts by component name. -/
theorem sortedItems_sorted (ch : Channel) :
    List.Sorted (fun p q : String × Component => p.1 ≤ q.1) (sortedItems ch) :=
  List.sorted_insertionSort _ ch

/-- Helper for C6: with distinct component names the sort is strictly
increasing on names. -/
theorem sortedItems_sorted_lt (ch : Channel) (hnd : (ch.map Prod.fst).Nodup) :
    List.Sorted (fun p q : String × Component => p.1 < q.1) (sortedItems ch) := by
  have hs := sortedItems_sorted ch
  have hperm := sortedItems_perm ch
  have hnd2 : ((sortedItems ch).map Prod.fst).Nodup := by
    rw [(hperm.map Prod.fst).nodup_iff]
    exact hnd
  have hne : List.Pairwise (fun p q : String × Component => p.1 ≠ q.1) (sortedItems ch) :=
    List.pairwise_map.1 hnd2
  exact (List.Pairwise.and hs hne).imp (fun h => lt_of_le_of_ne h.1 h.2)

/-- Helper for C6: with distinct component names, the sorted item list is
the same for every document order of the channel. -/
theorem sortedItems_perm_invariant (ch ch' : Channel) (hperm : List.Perm ch' ch)
    (hnd : (ch.map Prod.fst).Nodup) : sortedItems ch' = sortedItems ch := by
  have hnd' : (ch'.map Prod.fst).Nodup := by
    rw [(hperm.map Prod.fst).nodup_iff]
    exact hnd
  have h1 : List.Perm (sortedItems ch') (sortedItems ch) :=
    (sortedItems_perm ch').trans (hperm.trans (sortedItems_perm ch).symm)
  exact List.eq_of_perm_of_sorted h1 (sortedItems_sorted_lt ch' hnd')
    (sortedItems_sorted_lt ch hnd)

/-- C6: the report concatenates the channels' sections in stored order,
and within a channel the components are iterated as `sortedItems`, which
is a permutation of the channel's items sorted lexicographically by
component name and is identical for every document order of the channel's
items (given the distinct keys of a JSON object). -/
theorem C6_iteration_order (fd : String → FetchOutcome)
    (chs : List (String × Channel)) (ch ch' : Channel)
    (hperm : List.Perm ch' ch) (hnd : (ch.map Prod.fst).Nodup) :
    (checkAllComponents fd chs).1 =
      (chs.map (fun p => (processChannel fd p.1 p.2).1)).flatten ∧
    List.Perm (sortedItems ch) ch ∧
    List.Sorted (fun p q : String × Component => p.1 ≤ q.1) (sortedItems ch) ∧
    sortedItems ch' = sortedItems ch := by
  refine ⟨?_, sortedItems_perm ch, sortedItems_sorted ch,
    sortedItems_perm_invariant ch ch' hperm hnd⟩
  simp [checkAllComponents, List.map_map, Function.comp_def]

/-- C6 witness: a two-component channel given in both orders. -/
theorem C6_witness :
    List.Perm ([("b", ⟨none, none⟩), ("a", ⟨none, none⟩)] : Channel)
      [("a", (⟨none, none⟩ : Component)), ("b", ⟨none, none⟩)] ∧
    (([("a", (⟨none, none⟩ : Component)), ("b", ⟨none, none⟩)].map Prod.fst).Nodup) ∧
    sortedItems [("b", ⟨none, none⟩), ("a", ⟨none, none⟩)] =
      sortedItems [("a", ⟨none, none⟩), ("b", ⟨none, none⟩)] := by
  have hp : List.Perm ([("b", ⟨none, none⟩), ("a", ⟨none, none⟩)] : Channel)
      [("a", (⟨none, none⟩ : Component)), ("b", ⟨none, none⟩)] := by decide
  have hnd : (([("a", (⟨none, none⟩ : Component)),
      ("b", ⟨none, none⟩)].map Prod.fst).Nodup) := by decide
  exact ⟨hp, hnd,
    (C6_iteration_order (fun _ => FetchOutcome.output "") [] _ _ hp hnd).2.2.2⟩

end CheckRuntimeSignatures

namespace CheckRuntimeSignatures

/-- Helper for C9: a component's processing depends on the oracle only
through the URLs it actually fetches. -/
theorem processComponent_congr (fd1 fd2 : String → FetchOutcome) (name : String)
    (c : Component)
    (h : ∀ u ∈ (processComponent fd1 name c).2.2, fd1 u = fd2 u) :
    processComponent fd1 name c = processComponent fd2 name c := by
  by_cases hu : urlOf c = ""
  · simp [processComponent, hu]
  · have hmem : urlOf c ∈ (processComponent fd1 name c).2.2 := by
      simp only [processComponent]
      rw [if_neg hu]
      rcases hr : extract_result fd1 (urlOf c) with e | a
      · simp [hr]
      · simp only [hr]
        split <;> simp
    have hf : fd1 (urlOf c) = fd2 (urlOf c) := h _ hmem
    have hres : extract_result fd1 (urlOf c) = extract_result fd2 (urlOf c) := by
      unfold extract_result extractTrace withTempFile
      rw [hf]
    simp only [processComponent, hres]

/-- Helper for C9: a list of components processed with two oracles that
agree on all fetched URLs yields the same results. -/
theorem processItems_congr (fd1 fd2 : String → FetchOutcome)
    (l : List (String × Component))
    (h : ∀ u ∈ (l.map (fun p => (processComponent fd1 p.1 p.2).2.2)).flatten,
      fd1 u = fd2 u) :
    l.map (fun p => processComponent fd1 p.1 p.2) =
      l.map (fun p => processComponent fd2 p.1 p.2) := by
  induction l with
  | nil => rfl
  | cons p rest ih =>
      simp only [List.map_cons, List.flatten_cons] at h ⊢
      have h1 : ∀ u ∈ (processComponent fd1 p.1 p.2).2.2, fd1 u = fd2 u :=
        fun u hu => h u (List.mem_append.2 (Or.inl hu))
      have h2 : ∀ u ∈ (rest.map (fun q =>
          (processComponent fd1 q.1 q.2).2.2)).flatten, fd1 u = fd2 u :=
        fun u hu => h u (List.mem_append.2 (Or.inr hu))
      rw [processComponent_congr fd1 fd2 p.1 p.2 h1, ih h2]

/-- Helper for C9: a channel processed with two oracles that agree on its
fetched URLs yields the same section, count and fetch list. -/
theorem processChannel_congr (fd1 fd2 : String → FetchOutcome) (cname : String)
    (ch : Channel)
    (h : ∀ u ∈ (processChannel fd1 cname ch).2.2, fd1 u = fd2 u) :
    processChannel fd1 cname ch = processChannel fd2 cname ch := by
  have h' : ∀ u ∈ ((sortedItems ch).map (fun p =>
      (processComponent fd1 p.1 p.2).2.2)).flatten, fd1 u = fd2 u := by
    intro u hu
    apply h
    simpa [processChannel, List.map_map, Function.comp_def] using hu
  simp only [processChannel]
  rw [processItems_congr fd1 fd2 (sortedItems ch) h']

/-- Helper for C9: `checkAllComponents` on a non-empty channel list splits
into the head channel and the rest. -/
theorem checkAll_cons (fd : String → FetchOutcome) (p : String × Channel)
    (rest : List (String × Channel)) :
    checkAllComponents fd (p :: rest) =
      ((processChannel fd p.1 p.2).1 ++ (checkAllComponents fd rest).1,
       (processChannel fd p.1 p.2).2.1 + (checkAllComponents fd rest).2.1,
       (processChannel fd p.1 p.2).2.2 ++ (checkAllComponents fd rest).2.2) := by
  simp [checkAllComponents]

/-- Helper for C9: the whole channel loop depends on the oracle only
through the URLs it fetches. -/
theorem checkAll_congr (fd1 fd2 : String → FetchOutcome) :
    ∀ channels : List (String × Channel),
      (∀ u ∈ (checkAllComponents fd1 channels).2.2, fd1 u = fd2 u) →
      checkAllComponents fd1 channels = checkAllComponents fd2 channels := by
  intro channels
  induction channels with
  | nil => intro _; rfl
  | cons p rest ih =>
      intro h
      rw [checkAll_cons fd1 p rest] at h
      have h1 : ∀ u ∈ (processChannel fd1 p.1 p.2).2.2, fd1 u = fd2 u :=
        fun u hu => h u (List.mem_append.2 (Or.inl hu))
      have h2 : ∀ u ∈ (checkAllComponents fd1 rest).2.2, fd1 u = fd2 u :=
        fun u hu => h u (List.mem_append.2 (Or.inr hu))
      rw [checkAll_cons fd1 p rest, checkAll_cons fd2 p rest,
        processChannel_congr fd1 fd2 p.1 p.2 h1, ih h2]

/-- C9: the run is deterministic in its inputs — the whole run result
(report, mismatch count, exit code, fetch list) is a function of the lock
document and of the remote contents at the URLs the run fetches, so two
runs against an unchanged lock file and unchanged remote signatures are
identical. -/
theorem C9_deterministic (fd1 fd2 : String → FetchOutcome) (lock : Lock)
    (h : ∀ u ∈ (main fd1 lock).fetched, fd1 u = fd2 u) :
    main fd1 lock = main fd2 lock := by
  have h' : ∀ u ∈ (checkAllComponents fd1 (lock.channels.getD [])).2.2,
      fd1 u = fd2 u := h
  have hc := checkAll_congr fd1 fd2 (lock.channels.getD []) h'
  simp only [main, hc]

/-- C9 witness: two oracles that agree on the single fetched URL but
differ elsewhere produce identical runs. -/
theorem C9_witness :
    (∀ u ∈ (main (fun _ => FetchOutcome.output "x")
        ⟨some [("stable", [("cli", ⟨some "http://u", some "AA"⟩)])]⟩).fetched,
      (fun _ => FetchOutcome.output "x") u =
        (fun v => if v = "http://u" then FetchOutcome.output "x"
          else FetchOutcome.gpgErr "other") u) ∧
    main (fun _ => FetchOutcome.output "x")
        ⟨some [("stable", [("cli", ⟨some "http://u", some "AA"⟩)])]⟩ =
      main (fun v => if v = "http://u" then FetchOutcome.output "x"
          else FetchOutcome.gpgErr "other")
        ⟨some [("stable", [("cli", ⟨some "http://u", some "AA"⟩)])]⟩ := by
  have hagree : ∀ u ∈ (main (fun _ => FetchOutcome.output "x")
      ⟨some [("stable", [("cli", ⟨some "http://u", some "AA"⟩)])]⟩).fetched,
      (fun _ => FetchOutcome.output "x") u =
        (fun v => if v = "http://u" then FetchOutcome.output "x"
          else FetchOutcome.gpgErr "other") u := by
    intro u hu
    have hf : (main (fun _ => FetchOutcome.output "x")
        ⟨some [("stable", [("cli", ⟨some "http://u", some "AA"⟩)])]⟩).fetched =
        ["http://u"] := rfl
    rw [hf] at hu
    simp only [List.mem_singleton] at hu
    subst hu
    decide
  exact ⟨hagree, C9_deterministic _ _ _ hagree⟩

end CheckRuntimeSignatures
